import Mathlib

/-!
Shallow embedding of the batch streaming ingestion pipeline of the klondike
repository, centred on `klondike/scripts/stream_csv_to_database.py`
(`stream_csv_to_database`) together with the lazy-partition variant
`klondike/scripts/stream_csv_to_bigquery.py` (`stream_csv_to_bigquery`).

The source file is modelled as an already-parsed delimited file: a header line
and a list of data lines, each a list of string fields (the scripts are always
invoked with `infer_schema_length = 0`-style all-text reads by default, and the
claims under study either fix that budget at 0 or are independent of column
dtypes, so every field is a `String` here; polars' duplicate-column renaming is
not modelled — all concrete inputs below have pairwise distinct field values in
any line that ends up parsed as a header).

`read_csv` models `polars.read_csv(path, separator, infer_schema_length,
skip_rows, n_rows)` for a well-formed readable file:
* `skip_rows = k` skips the first `k` LINES of the file before the header is
  parsed (polars parses the header from the first non-skipped line; the
  separate polars parameter `skip_rows_after_header`, which the script does not
  use, is the one that would skip data rows below the header);
* the next line becomes the column names of the resulting frame;
* up to `n_rows` following lines become the data rows;
* if no line is left after skipping, polars raises `NoDataError`, modelled as
  `none`.

The destination connector's `write_dataframe(df=..., table_name=..., **kwargs)`
is modelled as a function from the number of previously succeeded writes and
the dataframe to `Except ε Unit`: `Except.error e` models the call raising an
exception `e`, which `stream_csv_to_database` propagates unchanged.

The `while True` loop is embedded with explicit fuel (structural recursion);
`stream_csv_to_database` supplies fuel `f.rows.length + 1`, which is proved
adequate below (a run from the initial state never returns the fuel-exhaustion
marker: each productive iteration consumes at least one source row).
-/

namespace Klondike

/-- A parsed delimited source file: the header line and the data lines,
each a list of string fields. -/
structure CsvFile where
  header : List String
  rows : List (List String)
  deriving DecidableEq

/-- A polars dataframe as the pipeline sees it with inference budget 0:
column names plus rows of string fields (every column is read as `pl.String`
when `infer_schema_length = 0`, per the polars contract quoted in the
script's own docstring). -/
structure DataFrame where
  columns : List String
  rows : List (List String)
  deriving DecidableEq

/-- One invocation of `connector.write_dataframe(df=batch_df,
table_name=destination_table_name, **bigquery_kwargs)`: the arguments the
coordinator actually passes. `κ` is the type of the uninterpreted
keyword-option bag, forwarded without inspection. -/
structure WriteCall (κ : Type) where
  df : DataFrame
  table_name : String
  kwargs : κ
  deriving DecidableEq

/-- The column names polars assigns at a given `skip_rows` offset: with
`skip_rows = 0` the real header line; with `skip_rows = k + 1` the file's
line `k + 1`, i.e. data row `k` (index `k` into `rows`), is parsed as the
header. -/
def headerAt (f : CsvFile) (skip_rows : Nat) : List String :=
  if skip_rows = 0 then f.header else f.rows.getD (skip_rows - 1) []

/-- The dataframe `pl.read_csv(..., skip_rows, n_rows)` produces when at
least one line survives the skip. -/
def batchAt (f : CsvFile) (skip_rows n_rows : Nat) : DataFrame :=
  { columns := headerAt f skip_rows, rows := (f.rows.drop skip_rows).take n_rows }

/-- Model of `pl.read_csv(csv_path, separator=..., infer_schema_length=...,
skip_rows=..., n_rows=...)`: skip `skip_rows` lines of the file, parse the
next line as the header, read up to `n_rows` data lines. `none` models the
`NoDataError` polars raises when no line is left after the skip. -/
def read_csv (f : CsvFile) (skip_rows n_rows : Nat) : Option DataFrame :=
  match (f.header :: f.rows).drop skip_rows with
  | [] => none
  | h :: t => some { columns := h, rows := t.take n_rows }

/-- Terminal state of one streaming run. -/
inductive StreamStatus (ε κ : Type) where
  /-- The loop hit a zero-row read and broke out normally. -/
  | done
  /-- `write_dataframe` raised `e` on the recorded attempted call; the
  exception propagates out of the coordinator unchanged. -/
  | writeFailed (e : ε) (attempted : WriteCall κ)
  /-- A read found no line at all after the skip (polars `NoDataError`);
  unreachable from the initial state of the loop. -/
  | noData
  /-- Artefact of the fuel embedding; never returned when the fuel bound
  exceeds the number of remaining source rows (proved below). -/
  | outOfFuel
  deriving DecidableEq

/-- Observable outcome of one streaming run: the two counters of the
Python function, the number of `pl.read_csv` calls performed, the
successful write calls in emission order, and the terminal status. -/
structure StreamResult (ε κ : Type) where
  recordsWritten : Nat
  skipRowsCount : Nat
  reads : Nat
  calls : List (WriteCall κ)
  status : StreamStatus ε κ
  deriving DecidableEq

/-- The `while True:` loop of `stream_csv_to_database`, with explicit fuel.
State: `skip_rows_count`, `records_written`, the successful write calls so
far, and the count of reads performed.  Each iteration re-reads the source
at offset `skip_rows_count` with `n_rows = batch_size`, breaks on a
zero-row batch, otherwise writes the batch (aborting on error) and advances
both counters by the batch length. -/
def streamLoop (f : CsvFile) (batch_size : Nat) (destination_table_name : String)
    (kwargs : κ) (write_dataframe : Nat → DataFrame → Except ε Unit) :
    Nat → Nat → Nat → List (WriteCall κ) → Nat → StreamResult ε κ
  | 0, skip_rows_count, records_written, calls, reads =>
      ⟨records_written, skip_rows_count, reads, calls, .outOfFuel⟩
  | fuel + 1, skip_rows_count, records_written, calls, reads =>
      match read_csv f skip_rows_count batch_size with
      | none => ⟨records_written, skip_rows_count, reads + 1, calls, .noData⟩
      | some batch_df =>
        if batch_df.rows.length = 0 then
          ⟨records_written, skip_rows_count, reads + 1, calls, .done⟩
        else
          match write_dataframe calls.length batch_df with
          | .error e =>
              ⟨records_written, skip_rows_count, reads + 1, calls,
                .writeFailed e ⟨batch_df, destination_table_name, kwargs⟩⟩
          | .ok _ =>
              streamLoop f batch_size destination_table_name kwargs write_dataframe
                fuel (skip_rows_count + batch_df.rows.length)
                (records_written + batch_df.rows.length)
                (calls ++ [⟨batch_df, destination_table_name, kwargs⟩]) (reads + 1)

/-- `stream_csv_to_database(connector, csv_path, destination_table_name,
batch_size, infer_schema_length=0, csv_separator, **bigquery_kwargs)`:
run the loop from `records_written = 0`, `skip_rows_count = 0`.  The fuel
`f.rows.length + 1` strictly bounds the number of loop iterations, since
every iteration that recurses consumes at least one fresh source row. -/
def stream_csv_to_database (f : CsvFile) (destination_table_name : String)
    (batch_size : Nat) (kwargs : κ)
    (write_dataframe : Nat → DataFrame → Except ε Unit) : StreamResult ε κ :=
  streamLoop f batch_size destination_table_name kwargs write_dataframe
    (f.rows.length + 1) 0 0 [] 0

variable {ε κ : Type}

/-- Unfolding the loop when the read finds no line after the skip. -/
theorem streamLoop_step_none (f : CsvFile) (B : Nat) (tbl : String) (kw : κ)
    (w : Nat → DataFrame → Except ε Unit) (fuel skip written reads : Nat)
    (calls : List (WriteCall κ)) (h : read_csv f skip B = none) :
    streamLoop f B tbl kw w (fuel + 1) skip written calls reads =
      ⟨written, skip, reads + 1, calls, .noData⟩ := by
  simp [streamLoop, h]

/-- Unfolding the loop when the read returns a zero-row batch: break. -/
theorem streamLoop_step_done (f : CsvFile) (B : Nat) (tbl : String) (kw : κ)
    (w : Nat → DataFrame → Except ε Unit) (fuel skip written reads : Nat)
    (calls : List (WriteCall κ)) (df : DataFrame) (h : read_csv f skip B = some df)
    (hdf : df.rows.length = 0) :
    streamLoop f B tbl kw w (fuel + 1) skip written calls reads =
      ⟨written, skip, reads + 1, calls, .done⟩ := by
  simp [streamLoop, h, hdf]

/-- Unfolding the loop when the write raises: the loop aborts at once,
recording the attempted call and the raw exception. -/
theorem streamLoop_step_err (f : CsvFile) (B : Nat) (tbl : String) (kw : κ)
    (w : Nat → DataFrame → Except ε Unit) (fuel skip written reads : Nat)
    (calls : List (WriteCall κ)) (df : DataFrame) (e : ε)
    (h : read_csv f skip B = some df) (hdf : df.rows.length ≠ 0)
    (hw : w calls.length df = Except.error e) :
    streamLoop f B tbl kw w (fuel + 1) skip written calls reads =
      ⟨written, skip, reads + 1, calls, .writeFailed e ⟨df, tbl, kw⟩⟩ := by
  simp [streamLoop, h, hdf, hw]

/-- Unfolding the loop when the write succeeds: both counters advance by
the batch length and the loop continues. -/
theorem streamLoop_step_ok (f : CsvFile) (B : Nat) (tbl : String) (kw : κ)
    (w : Nat → DataFrame → Except ε Unit) (fuel skip written reads : Nat)
    (calls : List (WriteCall κ)) (df : DataFrame)
    (h : read_csv f skip B = some df) (hdf : df.rows.length ≠ 0)
    (hw : w calls.length df = Except.ok ()) :
    streamLoop f B tbl kw w (fuel + 1) skip written calls reads =
      streamLoop f B tbl kw w fuel (skip + df.rows.length) (written + df.rows.length)
        (calls ++ [⟨df, tbl, kw⟩]) (reads + 1) := by
  simp [streamLoop, h, hdf, hw]

/-- As long as the skip does not run past the end of the file, the read
succeeds and returns exactly `batchAt`: the next line as header, the
following `n` lines as data. -/
theorem read_csv_eq_of_le (f : CsvFile) (skip n : Nat) (h : skip ≤ f.rows.length) :
    read_csv f skip n = some (batchAt f skip n) := by
  unfold read_csv batchAt headerAt
  match skip, h with
  | 0, _ => simp
  | s + 1, h =>
    have hs : s < f.rows.length := by omega
    simp only [List.drop_succ_cons]
    rw [List.drop_eq_getElem_cons hs]
    simp [List.getD_eq_getElem?_getD, List.getElem?_eq_getElem hs]

/-- Splitting a list after its first `min n length` elements. -/
theorem take_min_append_drop (n : Nat) (l : List α) :
    l.take n ++ l.drop (min n l.length) = l := by
  rcases le_or_lt n l.length with h | h
  · rw [min_eq_left h, List.take_append_drop]
  · rw [min_eq_right (Nat.le_of_lt h), List.take_of_length_le (Nat.le_of_lt h),
      List.drop_length, List.append_nil]

/-- Peeling one batch off a ceiling division: for `0 < m`, consuming
`min B m` rows costs exactly one of the `⌈m / B⌉` batches. -/
theorem ceil_div_step (B m : Nat) (hB : 0 < B) (hm : 0 < m) :
    (m + B - 1) / B = ((m - min B m) + B - 1) / B + 1 := by
  have key : (m + B - 1) / B = (m - 1) / B + 1 := by
    rw [Nat.div_eq_sub_div hB (by omega)]
    congr 2
    omega
  rcases le_or_lt B m with h | h
  · rw [min_eq_left h, key]
    congr 2
    omega
  · rw [min_eq_right (Nat.le_of_lt h), key,
      Nat.div_eq_of_lt (show m - 1 < B by omega),
      Nat.div_eq_of_lt (show m - m + B - 1 < B by omega)]

/-- Master lemma for runs in which every write succeeds: from any loop
state whose offset is inside the file and with adequate fuel, the loop
consumes exactly the remaining rows, covering them once in order in
non-empty batches of at most `B` rows, `⌈remaining / B⌉` of them, with one
final zero-row read, and finishes `done`. -/
theorem streamLoop_all_ok (f : CsvFile) (B : Nat) (tbl : String) (kw : κ)
    (w : Nat → DataFrame → Except ε Unit)
    (hB : 0 < B) (hw : ∀ i df, w i df = Except.ok ()) :
    ∀ fuel skip written reads : Nat, ∀ calls : List (WriteCall κ),
      skip ≤ f.rows.length → f.rows.length - skip < fuel →
      ∃ newCalls : List (WriteCall κ),
        streamLoop f B tbl kw w fuel skip written calls reads =
          ⟨written + (f.rows.length - skip), skip + (f.rows.length - skip),
            reads + ((f.rows.length - skip) + B - 1) / B + 1, calls ++ newCalls, .done⟩ ∧
        (newCalls.map fun c => c.df.rows).flatten = f.rows.drop skip ∧
        newCalls.length = ((f.rows.length - skip) + B - 1) / B ∧
        ∀ c ∈ newCalls, c.table_name = tbl ∧ c.kwargs = kw ∧
          0 < c.df.rows.length ∧ c.df.rows.length ≤ B := by
  intro fuel
  induction fuel with
  | zero => intro skip written reads calls hskip hfuel; omega
  | succ fuel ih =>
    intro skip written reads calls hskip hfuel
    have hread := read_csv_eq_of_le f skip B hskip
    have hlen : (batchAt f skip B).rows.length = min B (f.rows.length - skip) := by
      simp [batchAt]
    rcases Nat.eq_or_lt_of_le hskip with heq | hlt
    · have h0 : f.rows.length - skip = 0 := by omega
      have hempty : (batchAt f skip B).rows.length = 0 := by
        rw [hlen, h0]
        simp
      have hd : (f.rows.length - skip + B - 1) / B = 0 := Nat.div_eq_of_lt (by omega)
      refine ⟨[], ?_, ?_, ?_, by simp⟩
      · rw [streamLoop_step_done f B tbl kw w fuel skip written reads calls _ hread hempty]
        simp only [StreamResult.mk.injEq]
        exact ⟨by omega, by omega, by rw [hd], by simp, trivial⟩
      · rw [heq]
        simp
      · rw [hd]
        simp
    · have hub : (batchAt f skip B).rows.length ≤ f.rows.length - skip := by
        rw [hlen]
        exact Nat.min_le_right _ _
      have hubB : (batchAt f skip B).rows.length ≤ B := by
        rw [hlen]
        exact Nat.min_le_left _ _
      have hpos : 0 < (batchAt f skip B).rows.length := by
        rw [hlen]
        exact lt_min hB (by omega)
      have harith : (f.rows.length - skip + B - 1) / B
          = ((f.rows.length - skip - (batchAt f skip B).rows.length) + B - 1) / B + 1 := by
        have h1 := ceil_div_step B (f.rows.length - skip) hB (by omega)
        rw [← hlen] at h1
        exact h1
      have hne : (batchAt f skip B).rows.length ≠ 0 := by omega
      have hstep := streamLoop_step_ok f B tbl kw w fuel skip written reads calls _
        hread hne (hw _ _)
      have hle1 : skip + (batchAt f skip B).rows.length ≤ f.rows.length := by
        calc skip + (batchAt f skip B).rows.length
            ≤ skip + (f.rows.length - skip) := Nat.add_le_add_left hub skip
          _ = f.rows.length := Nat.add_sub_cancel' hskip
      have hlt2 : f.rows.length - (skip + (batchAt f skip B).rows.length) < fuel := by
        calc f.rows.length - (skip + (batchAt f skip B).rows.length)
            ≤ f.rows.length - (skip + 1) :=
              Nat.sub_le_sub_left (Nat.add_le_add_left hpos skip) f.rows.length
          _ < fuel := by omega
      obtain ⟨nc, hrec, hflat, hcount, hmem⟩ :=
        ih (skip + (batchAt f skip B).rows.length)
          (written + (batchAt f skip B).rows.length) (reads + 1)
          (calls ++ [⟨batchAt f skip B, tbl, kw⟩]) hle1 hlt2
      have hsub2 : f.rows.length - (skip + (batchAt f skip B).rows.length)
          = f.rows.length - skip - (batchAt f skip B).rows.length :=
        (Nat.sub_sub f.rows.length skip (batchAt f skip B).rows.length).symm
      refine ⟨⟨batchAt f skip B, tbl, kw⟩ :: nc, ?_, ?_, ?_, ?_⟩
      · rw [hstep, hrec]
        simp only [StreamResult.mk.injEq]
        refine ⟨?_, ?_, ?_, by simp, trivial⟩
        · rw [hsub2]
          omega
        · rw [hsub2]
          omega
        · rw [hsub2, harith]
          generalize (f.rows.length - skip - (batchAt f skip B).rows.length + B - 1) / B = X
          ring
      · simp only [List.map_cons, List.flatten_cons, hflat]
        rw [← List.drop_drop, hlen]
        have hrows : (batchAt f skip B).rows = (f.rows.drop skip).take B := rfl
        rw [hrows]
        have hdl : (f.rows.drop skip).length = f.rows.length - skip := by simp
        rw [← hdl]
        exact take_min_append_drop B (f.rows.drop skip)
      · rw [List.length_cons, hcount, hsub2, harith]
      · intro c hc
        rcases List.mem_cons.mp hc with rfl | hc
        · exact ⟨rfl, rfl, hpos, hubB⟩
        · exact hmem c hc

/-- In every run, whatever the connector does: each successful write call
on record carries the destination table name and the kwargs bag, and so
does the attempted call of a write failure. -/
theorem streamLoop_calls_mem (f : CsvFile) (B : Nat) (tbl : String) (kw : κ)
    (w : Nat → DataFrame → Except ε Unit) :
    ∀ fuel skip written reads : Nat, ∀ calls : List (WriteCall κ),
      (∀ c ∈ calls, c.table_name = tbl ∧ c.kwargs = kw) →
      (∀ c ∈ (streamLoop f B tbl kw w fuel skip written calls reads).calls,
          c.table_name = tbl ∧ c.kwargs = kw) ∧
      (∀ e a, (streamLoop f B tbl kw w fuel skip written calls reads).status =
          StreamStatus.writeFailed e a → a.table_name = tbl ∧ a.kwargs = kw) := by
  intro fuel
  induction fuel with
  | zero =>
    intro skip written reads calls h
    refine ⟨h, ?_⟩
    intro e a ha
    have ha2 : (StreamStatus.outOfFuel : StreamStatus ε κ) = .writeFailed e a := ha
    cases ha2
  | succ fuel ih =>
    intro skip written reads calls h
    cases hread : read_csv f skip B with
    | none =>
      rw [streamLoop_step_none f B tbl kw w fuel skip written reads calls hread]
      refine ⟨h, ?_⟩
      intro e a ha
      have ha2 : (StreamStatus.noData : StreamStatus ε κ) = .writeFailed e a := ha
      cases ha2
    | some df =>
      by_cases hdf : df.rows.length = 0
      · rw [streamLoop_step_done f B tbl kw w fuel skip written reads calls df hread hdf]
        refine ⟨h, ?_⟩
        intro e a ha
        have ha2 : (StreamStatus.done : StreamStatus ε κ) = .writeFailed e a := ha
        cases ha2
      · cases hwr : w calls.length df with
        | error e0 =>
          rw [streamLoop_step_err f B tbl kw w fuel skip written reads calls df e0
            hread hdf hwr]
          refine ⟨h, ?_⟩
          intro e a ha
          have ha2 : StreamStatus.writeFailed e0 (⟨df, tbl, kw⟩ : WriteCall κ)
              = .writeFailed e a := ha
          cases ha2
          exact ⟨rfl, rfl⟩
        | ok u =>
          cases u
          rw [streamLoop_step_ok f B tbl kw w fuel skip written reads calls df
            hread hdf hwr]
          apply ih
          intro c hc
          rcases List.mem_append.mp hc with hc | hc
          · exact h c hc
          · rcases List.mem_singleton.mp hc with rfl
            exact ⟨rfl, rfl⟩

/-- In every run, whatever the connector does: starting from equal
counters that total the recorded calls, `skip_rows_count` and
`records_written` remain equal and remain the total row count of the
successful write calls. -/
theorem streamLoop_counters (f : CsvFile) (B : Nat) (tbl : String) (kw : κ)
    (w : Nat → DataFrame → Except ε Unit) :
    ∀ fuel s reads : Nat, ∀ calls : List (WriteCall κ),
      s = (calls.map fun c => c.df.rows.length).sum →
      (streamLoop f B tbl kw w fuel s s calls reads).skipRowsCount =
        (streamLoop f B tbl kw w fuel s s calls reads).recordsWritten ∧
      (streamLoop f B tbl kw w fuel s s calls reads).recordsWritten =
        (((streamLoop f B tbl kw w fuel s s calls reads).calls).map
          fun c => c.df.rows.length).sum := by
  intro fuel
  induction fuel with
  | zero =>
    intro s reads calls h
    exact ⟨rfl, h⟩
  | succ fuel ih =>
    intro s reads calls h
    cases hread : read_csv f s B with
    | none =>
      rw [streamLoop_step_none f B tbl kw w fuel s s reads calls hread]
      exact ⟨rfl, h⟩
    | some df =>
      by_cases hdf : df.rows.length = 0
      · rw [streamLoop_step_done f B tbl kw w fuel s s reads calls df hread hdf]
        exact ⟨rfl, h⟩
      · cases hwr : w calls.length df with
        | error e0 =>
          rw [streamLoop_step_err f B tbl kw w fuel s s reads calls df e0 hread hdf hwr]
          exact ⟨rfl, h⟩
        | ok u =>
          cases u
          rw [streamLoop_step_ok f B tbl kw w fuel s s reads calls df hread hdf hwr]
          refine ih (s + df.rows.length) (reads + 1) (calls ++ [⟨df, tbl, kw⟩]) ?_
          simp [h]

/-- Master lemma for runs whose first `k` (0-based) writes succeed and
whose write number `k` raises `e`: provided the file still has a row at
offset `skip + k * B`, the loop performs exactly `k` successful writes —
the `k` full `B`-row batches following the offset — then aborts on the
failing attempt, propagating `e` itself unchanged. -/
theorem streamLoop_fail_at (f : CsvFile) (B : Nat) (tbl : String) (kw : κ)
    (w : Nat → DataFrame → Except ε Unit) (e : ε) (hB : 0 < B) :
    ∀ k fuel skip written reads : Nat, ∀ calls : List (WriteCall κ),
      skip + k * B < f.rows.length →
      k < fuel →
      (∀ i df, i < calls.length + k → w i df = Except.ok ()) →
      (∀ df, w (calls.length + k) df = Except.error e) →
      streamLoop f B tbl kw w fuel skip written calls reads =
        ⟨written + k * B, skip + k * B, reads + k + 1,
          calls ++ (List.range k).map
            (fun i => ⟨batchAt f (skip + i * B) B, tbl, kw⟩),
          .writeFailed e ⟨batchAt f (skip + k * B) B, tbl, kw⟩⟩ := by
  intro k
  induction k with
  | zero =>
    intro fuel skip written reads calls hk hfuel hok hfail
    match fuel, hfuel with
    | fuel + 1, _ =>
      have hskip : skip ≤ f.rows.length := by omega
      have hread := read_csv_eq_of_le f skip B hskip
      have hlen : (batchAt f skip B).rows.length = min B (f.rows.length - skip) := by
        simp [batchAt]
      have hne : (batchAt f skip B).rows.length ≠ 0 := by
        rw [hlen]
        exact (lt_min hB (by omega : 0 < f.rows.length - skip)).ne'
      rw [streamLoop_step_err f B tbl kw w fuel skip written reads calls _ e hread hne
        (hfail _)]
      simp
  | succ k ihk =>
    intro fuel skip written reads calls hk hfuel hok hfail
    match fuel, hfuel with
    | fuel + 1, hfuel =>
      have hsm : (k + 1) * B = k * B + B := Nat.succ_mul k B
      rw [hsm] at hk
      have hskip : skip ≤ f.rows.length := by omega
      have hread := read_csv_eq_of_le f skip B hskip
      have hlen : (batchAt f skip B).rows.length = min B (f.rows.length - skip) := by
        simp [batchAt]
      have hBle : B ≤ f.rows.length - skip := by omega
      have hlenB : (batchAt f skip B).rows.length = B := by
        rw [hlen, min_eq_left hBle]
      have hne : (batchAt f skip B).rows.length ≠ 0 := by
        rw [hlenB]
        omega
      have hwr : w calls.length (batchAt f skip B) = Except.ok () :=
        hok _ _ (by omega)
      rw [streamLoop_step_ok f B tbl kw w fuel skip written reads calls _ hread hne hwr,
        hlenB]
      have hok2 : ∀ i df,
          i < (calls ++ [(⟨batchAt f skip B, tbl, kw⟩ : WriteCall κ)]).length + k →
          w i df = Except.ok () := by
        intro i df hi
        refine hok i df ?_
        simp only [List.length_append, List.length_singleton] at hi
        omega
      have hfail2 : ∀ df,
          w ((calls ++ [(⟨batchAt f skip B, tbl, kw⟩ : WriteCall κ)]).length + k) df
            = Except.error e := by
        intro df
        have hlen2 :
            (calls ++ [(⟨batchAt f skip B, tbl, kw⟩ : WriteCall κ)]).length + k
              = calls.length + (k + 1) := by
          simp only [List.length_append, List.length_singleton]
          omega
        rw [hlen2]
        exact hfail df
      have hrec := ihk fuel (skip + B) (written + B) (reads + 1)
        (calls ++ [(⟨batchAt f skip B, tbl, kw⟩ : WriteCall κ)]) (by omega) (by omega)
        hok2 hfail2
      rw [hrec]
      have harg : ∀ i : Nat, skip + B + i * B = skip + (i + 1) * B := by
        intro i
        rw [Nat.succ_mul]
        ring
      simp only [StreamResult.mk.injEq]
      refine ⟨by rw [hsm]; ring, by rw [hsm]; ring, by omega, ?_, ?_⟩
      · rw [List.append_assoc]
        congr 1
        rw [List.range_succ_eq_map, List.map_cons, List.map_map, List.singleton_append]
        congr 1
        · simp
        · have hfun : ((fun i => (⟨batchAt f (skip + i * B) B, tbl, kw⟩ : WriteCall κ))
                ∘ Nat.succ)
              = fun i => (⟨batchAt f (skip + B + i * B) B, tbl, kw⟩ : WriteCall κ) := by
            funext i
            simp only [Function.comp_apply]
            have harg2 : skip + Nat.succ i * B = skip + B + i * B := by
              rw [Nat.succ_mul]
              ring
            rw [harg2]
          rw [hfun]
      · rw [harg k]

/-- Fixed-size row slices of a list, in order: slice `i` holds rows
`i*B .. i*B + B - 1`; there are `⌈length / B⌉` slices and none is empty.
Modelled from the spec: the call `lazy_df.partition_by_row_count(batch_size)`
in `stream_csv_to_bigquery` resolves to no code in this repository (it
names a polars method); the spec's lazy-partition strategy describes it
as partitioning the scan into fixed-size row slices in file order. -/
def partition_by_row_count (B : Nat) (rows : List (List String)) :
    List (List (List String)) :=
  (List.range ((rows.length + B - 1) / B)).map fun i => (rows.drop (i * B)).take B

/-- Terminal status of a `stream_csv_to_bigquery` run. -/
inductive BqStatus (ε κ : Type) where
  | done
  | writeFailed (e : ε) (attempted : WriteCall κ)
  deriving DecidableEq

/-- Observable outcome of a `stream_csv_to_bigquery` run. -/
structure BqResult (ε κ : Type) where
  recordsWritten : Nat
  calls : List (WriteCall κ)
  status : BqStatus ε κ
  deriving DecidableEq

/-- The `for batch, batched_df in enumerate(...)` loop of
`stream_csv_to_bigquery`: one write per batch in order against the
qualified table name, accumulating `records_written`, aborting on the
first raised exception. -/
def bqWriteAll (qualified_table_name : String) (kwargs : κ)
    (write_dataframe : Nat → DataFrame → Except ε Unit) :
    List DataFrame → Nat → List (WriteCall κ) → BqResult ε κ
  | [], records_written, calls => ⟨records_written, calls, .done⟩
  | df :: rest, records_written, calls =>
    match write_dataframe calls.length df with
    | .error e =>
        ⟨records_written, calls, .writeFailed e ⟨df, qualified_table_name, kwargs⟩⟩
    | .ok _ =>
        bqWriteAll qualified_table_name kwargs write_dataframe rest
          (records_written + df.rows.length)
          (calls ++ [⟨df, qualified_table_name, kwargs⟩])

/-- `stream_csv_to_bigquery(bigquery_connector, csv_path, dataset_name,
table_name, batch_size, infer_schema_length=0, csv_separator,
**bigquery_kwargs)`: one `scan_csv` of the whole file (so the header is
read once and every batch keeps the file's column schema), partitioned
into row-count slices, then one write per slice against the
`f"{dataset_name}.{table_name}"` qualified name with the kwargs bag. -/
def stream_csv_to_bigquery (f : CsvFile) (dataset_name table_name : String)
    (batch_size : Nat) (kwargs : κ)
    (write_dataframe : Nat → DataFrame → Except ε Unit) : BqResult ε κ :=
  bqWriteAll (dataset_name ++ "." ++ table_name) kwargs write_dataframe
    ((partition_by_row_count batch_size f.rows).map fun rs => ⟨f.header, rs⟩) 0 []

/-- Every write call recorded by the bigquery-variant loop carries the
qualified table name and the kwargs bag. -/
theorem bqWriteAll_calls_mem (tbl : String) (kw : κ)
    (w : Nat → DataFrame → Except ε Unit) :
    ∀ dfs : List DataFrame, ∀ written : Nat, ∀ calls : List (WriteCall κ),
      (∀ c ∈ calls, c.table_name = tbl ∧ c.kwargs = kw) →
      ∀ c ∈ (bqWriteAll tbl kw w dfs written calls).calls,
        c.table_name = tbl ∧ c.kwargs = kw := by
  intro dfs
  induction dfs with
  | nil =>
    intro written calls h
    exact h
  | cons df rest ih =>
    intro written calls h
    cases hwr : w calls.length df with
    | error e0 =>
      simp only [bqWriteAll, hwr]
      exact h
    | ok u =>
      cases u
      simp only [bqWriteAll, hwr]
      refine ih (written + df.rows.length) (calls ++ [⟨df, tbl, kw⟩]) ?_
      intro c hc
      rcases List.mem_append.mp hc with hc | hc
      · exact h c hc
      · rcases List.mem_singleton.mp hc with rfl
        exact ⟨rfl, rfl⟩

/-- A slice index below `⌈N / B⌉` starts strictly inside the list. -/
theorem chunk_index_lt (B N i : Nat) (hB : 0 < B) (hi : i < (N + B - 1) / B) :
    i * B < N := by
  have h1 : i + 1 ≤ (N + B - 1) / B := hi
  have h2 : (i + 1) * B ≤ ((N + B - 1) / B) * B := Nat.mul_le_mul_right B h1
  have h3 : ((N + B - 1) / B) * B ≤ N + B - 1 := Nat.div_mul_le_self _ _
  have h4 : (i + 1) * B = i * B + B := by ring
  omega

/-- The partitioner produces exactly `⌈length / B⌉` slices. -/
theorem partition_by_row_count_length (B : Nat) (rows : List (List String)) :
    (partition_by_row_count B rows).length = (rows.length + B - 1) / B := by
  unfold partition_by_row_count
  simp

/-- With `B > 0`, every slice the partitioner produces is non-empty and
holds at most `B` rows. -/
theorem partition_by_row_count_mem (B : Nat) (rows : List (List String)) (hB : 0 < B) :
    ∀ rs ∈ partition_by_row_count B rows, 0 < rs.length ∧ rs.length ≤ B := by
  intro rs hrs
  unfold partition_by_row_count at hrs
  rcases List.mem_map.mp hrs with ⟨i, hi, rfl⟩
  have hi2 : i < (rows.length + B - 1) / B := List.mem_range.mp hi
  have hlt := chunk_index_lt B rows.length i hB hi2
  have hlen : ((rows.drop (i * B)).take B).length = min B (rows.length - i * B) := by
    simp
  constructor
  · rw [hlen]
    exact lt_min hB (by omega)
  · rw [hlen]
    exact Nat.min_le_left _ _

/-- When every write succeeds, the bigquery-variant loop writes every
batch of its input list, in order, against the qualified name. -/
theorem bqWriteAll_all_ok (tbl : String) (kw : κ)
    (w : Nat → DataFrame → Except ε Unit) (hw : ∀ i df, w i df = Except.ok ()) :
    ∀ dfs : List DataFrame, ∀ written : Nat, ∀ calls : List (WriteCall κ),
      (bqWriteAll tbl kw w dfs written calls).calls
        = calls ++ dfs.map fun df => ⟨df, tbl, kw⟩ := by
  intro dfs
  induction dfs with
  | nil =>
    intro written calls
    simp [bqWriteAll]
  | cons df rest ih =>
    intro written calls
    simp only [bqWriteAll, hw calls.length df]
    rw [ih]
    simp

/-- C1: refuted on the code (code bug). Schema stability fails in the
offset-reread loop: on a homogeneous two-column all-text source (header
`a,b`, data rows `1,2` and `3,4`) with `batch_size = 1`, batch 2 is
parsed with column names `1,2` — the values of data row 1, consumed as a
header because polars `skip_rows` skips the header line along with the
already-read data — instead of batch 1's column set `a,b`. -/
theorem c1_schema_drift_across_batches :
    ((stream_csv_to_database ⟨["a", "b"], [["1", "2"], ["3", "4"]]⟩ "t" 1 ()
        (fun _ _ => (Except.ok () : Except Unit Unit))).calls.map
      fun c => c.df.columns) = [["a", "b"], ["1", "2"]] := by
  decide

/-- C2 counterexample: with `batchSize = 0` on a non-empty source, no
`InvalidConfigurationError` is raised (no such validation, and no such
type, exists in the code): the stream performs one source read — which
returns a zero-row frame — and completes normally with zero writes. -/
theorem c2_batch_size_zero_not_rejected :
    stream_csv_to_database ⟨["a"], [["1"]]⟩ "t" 0 ()
        (fun _ _ => (Except.ok () : Except Unit Unit)) =
      ⟨0, 0, 1, [], .done⟩ := by
  decide

/-- C2 amended: the coordinator performs no batch-size validation; for
every source, destination and connector, `batchSize = 0` yields exactly
one read (returning zero rows, since `n_rows = 0`) and a normal
completion with zero writes and zero rows written, with no error. -/
theorem c2_batch_size_zero_completes (f : CsvFile) (tbl : String) (kw : κ)
    (w : Nat → DataFrame → Except ε Unit) :
    stream_csv_to_database f tbl 0 kw w = ⟨0, 0, 1, [], .done⟩ := by
  have hread := read_csv_eq_of_le f 0 0 (Nat.zero_le _)
  have hlen : (batchAt f 0 0).rows.length = 0 := by simp [batchAt]
  unfold stream_csv_to_database
  exact streamLoop_step_done f 0 tbl kw w f.rows.length 0 0 0 [] _ hread hlen

/-- C3 counterexample: the coordinator adds no context to a write
failure. On a 2-row source with `batch_size = 1` and a connector whose
second write raises the bare exception value `()` — carrying no batch
index and no row count — the error that propagates out of the stream is
exactly that bare value, not a `WriteError` naming the batch index and
rows attempted (no `WriteError` type exists in the code, and the loop
does not even track a batch index). -/
theorem c3_write_failure_not_wrapped :
    stream_csv_to_database ⟨["c"], [["1"], ["2"]]⟩ "t" 1 ()
        (fun i _ => if i = 0 then Except.ok () else Except.error ()) =
      ⟨1, 1, 2, [⟨⟨["c"], [["1"]]⟩, "t", ()⟩],
        .writeFailed () ⟨⟨["1"], [["2"]]⟩, "t", ()⟩⟩ := by
  decide

/-- C3 amended: the abort semantics hold, but the exception propagates
as the connector raised it, without added context. If the connector's
writes `0..k-1` succeed and write `k` (0-based) raises `e`, and the
source still has a data row at offset `k*B`, then the stream aborts at
once: the connector's own exception `e` propagates unchanged together
with the attempted batch, the failing write is not retried, no further
batch is read (`k+1` reads in total), exactly `k` writes have succeeded,
and `records_written` reflects exactly the `k*B` rows of those `k` full
batches. -/
theorem c3_abort_on_write_failure (f : CsvFile) (tbl : String) (B k : Nat) (kw : κ)
    (w : Nat → DataFrame → Except ε Unit) (e : ε) (hB : 0 < B)
    (hk : k * B < f.rows.length)
    (hok : ∀ i df, i < k → w i df = Except.ok ())
    (hfail : ∀ df, w k df = Except.error e) :
    stream_csv_to_database f tbl B kw w =
      ⟨k * B, k * B, k + 1,
        (List.range k).map (fun i => ⟨batchAt f (i * B) B, tbl, kw⟩),
        .writeFailed e ⟨batchAt f (k * B) B, tbl, kw⟩⟩ := by
  have hkk : k ≤ k * B := by
    calc k = k * 1 := by ring
      _ ≤ k * B := Nat.mul_le_mul_left k hB
  have h := streamLoop_fail_at f B tbl kw w e hB k (f.rows.length + 1) 0 0 0 []
    (by omega) (by omega)
    (fun i df hi => hok i df (by simpa using hi))
    (fun df => by simpa using hfail df)
  unfold stream_csv_to_database
  rw [h]
  simp

/-- Witness for the amended C3 at a concrete run: 3-row source,
`batch_size = 1`, second write raises the string exception `E`. -/
theorem c3_abort_on_write_failure_witness :
    stream_csv_to_database ⟨["c"], [["1"], ["2"], ["3"]]⟩ "t" 1 ()
        (fun i _ => if i = 0 then Except.ok () else Except.error "E") =
      ⟨1, 1, 2, [⟨⟨["c"], [["1"]]⟩, "t", ()⟩],
        .writeFailed "E" ⟨⟨["1"], [["2"]]⟩, "t", ()⟩⟩ :=
  (c3_abort_on_write_failure ⟨["c"], [["1"], ["2"], ["3"]]⟩ "t" 1 1 ()
    (fun i _ => if i = 0 then Except.ok () else Except.error "E") "E"
    (by decide) (by decide)
    (fun i df hi => by
      have h0 : i = 0 := by omega
      subst h0
      rfl)
    (fun df => rfl)).trans (by decide)

/-- C4: for every source and every `batchSize > 0`, a run in which every
connector write succeeds completes with `records_written` (the count in
the final summary) equal to the number of data rows of the source. -/
theorem c4_total_rows_written (f : CsvFile) (tbl : String) (B : Nat) (kw : κ)
    (w : Nat → DataFrame → Except ε Unit) (hB : 0 < B)
    (hw : ∀ i df, w i df = Except.ok ()) :
    (stream_csv_to_database f tbl B kw w).recordsWritten = f.rows.length := by
  obtain ⟨nc, heq, -, -, -⟩ := streamLoop_all_ok f B tbl kw w hB hw
    (f.rows.length + 1) 0 0 0 [] (Nat.zero_le _) (by omega)
  unfold stream_csv_to_database
  rw [heq]
  simp

/-- Witness for C4: 3 rows, batches of 2, all writes succeed. -/
theorem c4_total_rows_written_witness :
    (stream_csv_to_database ⟨["a"], [["1"], ["2"], ["3"]]⟩ "t" 2 ()
        (fun _ _ => (Except.ok () : Except Unit Unit))).recordsWritten = 3 := by
  exact c4_total_rows_written ⟨["a"], [["1"], ["2"], ["3"]]⟩ "t" 2 ()
    (fun _ _ => Except.ok ()) (by decide) (fun _ _ => rfl)

/-- C5: for every source and every `batchSize > 0`, in a run in which
every connector write succeeds, concatenating the batches passed to the
connector's write, in emission order, reproduces the source file's data
rows in original order with no duplication and no omission. -/
theorem c5_batches_cover_source (f : CsvFile) (tbl : String) (B : Nat) (kw : κ)
    (w : Nat → DataFrame → Except ε Unit) (hB : 0 < B)
    (hw : ∀ i df, w i df = Except.ok ()) :
    (((stream_csv_to_database f tbl B kw w).calls).map fun c => c.df.rows).flatten
      = f.rows := by
  obtain ⟨nc, heq, hflat, -, -⟩ := streamLoop_all_ok f B tbl kw w hB hw
    (f.rows.length + 1) 0 0 0 [] (Nat.zero_le _) (by omega)
  unfold stream_csv_to_database
  rw [heq]
  simpa using hflat

/-- Witness for C5: 3 rows, batches of 2. -/
theorem c5_batches_cover_source_witness :
    (((stream_csv_to_database ⟨["a"], [["1"], ["2"], ["3"]]⟩ "t" 2 ()
        (fun _ _ => (Except.ok () : Except Unit Unit))).calls).map
      fun c => c.df.rows).flatten = [["1"], ["2"], ["3"]] := by
  exact c5_batches_cover_source ⟨["a"], [["1"], ["2"], ["3"]]⟩ "t" 2 ()
    (fun _ _ => Except.ok ()) (by decide) (fun _ _ => rfl)

/-- C6: for every source of `N` data rows and every `batchSize = B > 0`,
a run in which every write succeeds performs exactly `(N + B - 1) / B`
(that is, `⌈N / B⌉`, which is `0` when `N = 0`) connector writes, each of
a non-empty batch of at most `B` rows — for both coordinators: the
offset-reread `stream_csv_to_database` loop and the partition loop of
`stream_csv_to_bigquery`. -/
theorem c6_batch_count_and_sizes (f : CsvFile) (tbl dataset_name table_name : String)
    (B : Nat) (kw : κ) (w : Nat → DataFrame → Except ε Unit) (hB : 0 < B)
    (hw : ∀ i df, w i df = Except.ok ()) :
    ((stream_csv_to_database f tbl B kw w).calls.length
        = (f.rows.length + B - 1) / B ∧
      ∀ c ∈ (stream_csv_to_database f tbl B kw w).calls,
        0 < c.df.rows.length ∧ c.df.rows.length ≤ B) ∧
    (stream_csv_to_bigquery f dataset_name table_name B kw w).calls.length
        = (f.rows.length + B - 1) / B ∧
    ∀ c ∈ (stream_csv_to_bigquery f dataset_name table_name B kw w).calls,
      0 < c.df.rows.length ∧ c.df.rows.length ≤ B := by
  obtain ⟨nc, heq, -, hcount, hmem⟩ := streamLoop_all_ok f B tbl kw w hB hw
    (f.rows.length + 1) 0 0 0 [] (Nat.zero_le _) (by omega)
  have hbq := bqWriteAll_all_ok (dataset_name ++ "." ++ table_name) kw w hw
    ((partition_by_row_count B f.rows).map fun rs => ⟨f.header, rs⟩) 0 []
  refine ⟨?_, ?_, ?_⟩
  · unfold stream_csv_to_database
    rw [heq]
    constructor
    · simpa using hcount
    · intro c hc
      obtain ⟨-, -, h1, h2⟩ := hmem c (by simpa using hc)
      exact ⟨h1, h2⟩
  · unfold stream_csv_to_bigquery
    rw [hbq]
    simp [partition_by_row_count_length]
  · unfold stream_csv_to_bigquery
    rw [hbq]
    intro c hc
    simp only [List.nil_append, List.map_map, List.mem_map,
      Function.comp_apply] at hc
    rcases hc with ⟨rs, hrs, rfl⟩
    exact partition_by_row_count_mem B f.rows hB rs hrs

/-- Witness for C6: 3 rows, batches of 2 give 2 writes in both
coordinators. -/
theorem c6_batch_count_and_sizes_witness :
    ((stream_csv_to_database ⟨["a"], [["1"], ["2"], ["3"]]⟩ "t" 2 ()
        (fun _ _ => (Except.ok () : Except Unit Unit))).calls.length = 2 ∧
      ∀ c ∈ (stream_csv_to_database ⟨["a"], [["1"], ["2"], ["3"]]⟩ "t" 2 ()
        (fun _ _ => (Except.ok () : Except Unit Unit))).calls,
        0 < c.df.rows.length ∧ c.df.rows.length ≤ 2) ∧
    (stream_csv_to_bigquery ⟨["a"], [["1"], ["2"], ["3"]]⟩ "d" "tb" 2 ()
        (fun _ _ => (Except.ok () : Except Unit Unit))).calls.length = 2 ∧
    ∀ c ∈ (stream_csv_to_bigquery ⟨["a"], [["1"], ["2"], ["3"]]⟩ "d" "tb" 2 ()
        (fun _ _ => (Except.ok () : Except Unit Unit))).calls,
      0 < c.df.rows.length ∧ c.df.rows.length ≤ 2 := by
  exact c6_batch_count_and_sizes ⟨["a"], [["1"], ["2"], ["3"]]⟩ "t" "d" "tb" 2 ()
    (fun _ _ => Except.ok ()) (by decide) (fun _ _ => rfl)

/-- C7: for every empty source (zero data rows), any batch size and any
connector: the first read yields the zero-row end-of-stream signal
directly and the stream completes with zero writes, zero rows written
and no error. -/
theorem c7_empty_source (f : CsvFile) (tbl : String) (B : Nat) (kw : κ)
    (w : Nat → DataFrame → Except ε Unit) (h : f.rows = []) :
    stream_csv_to_database f tbl B kw w = ⟨0, 0, 1, [], .done⟩ := by
  have hread := read_csv_eq_of_le f 0 B (Nat.zero_le _)
  have hlen : (batchAt f 0 B).rows.length = 0 := by simp [batchAt, h]
  unfold stream_csv_to_database
  exact streamLoop_step_done f B tbl kw w f.rows.length 0 0 0 [] _ hread hlen

/-- Witness for C7: a header-only source. -/
theorem c7_empty_source_witness :
    stream_csv_to_database ⟨["a"], []⟩ "t" 3 ()
        (fun _ _ => (Except.ok () : Except Unit Unit)) =
      ⟨0, 0, 1, [], .done⟩ :=
  c7_empty_source ⟨["a"], []⟩ "t" 3 () (fun _ _ => Except.ok ()) rfl

/-- C8: for every finite source and `batchSize > 0`, a run in which
every write succeeds terminates through the zero-row signal: the final
status is `done` (the loop broke on a read that returned zero rows) and
exactly one more read than the number of writes was performed — the
zero-row read is not written and nothing is pulled after it. -/
theorem c8_zero_row_read_terminates (f : CsvFile) (tbl : String) (B : Nat) (kw : κ)
    (w : Nat → DataFrame → Except ε Unit) (hB : 0 < B)
    (hw : ∀ i df, w i df = Except.ok ()) :
    (stream_csv_to_database f tbl B kw w).status = StreamStatus.done ∧
    (stream_csv_to_database f tbl B kw w).reads =
      (stream_csv_to_database f tbl B kw w).calls.length + 1 := by
  obtain ⟨nc, heq, -, hcount, -⟩ := streamLoop_all_ok f B tbl kw w hB hw
    (f.rows.length + 1) 0 0 0 [] (Nat.zero_le _) (by omega)
  unfold stream_csv_to_database
  rw [heq]
  exact ⟨rfl, by simp [hcount]⟩

/-- Witness for C8: 3 rows, batches of 2: 3 reads, 2 writes. -/
theorem c8_zero_row_read_terminates_witness :
    (stream_csv_to_database ⟨["a"], [["1"], ["2"], ["3"]]⟩ "t" 2 ()
        (fun _ _ => (Except.ok () : Except Unit Unit))).status
        = StreamStatus.done ∧
    (stream_csv_to_database ⟨["a"], [["1"], ["2"], ["3"]]⟩ "t" 2 ()
        (fun _ _ => (Except.ok () : Except Unit Unit))).reads =
      (stream_csv_to_database ⟨["a"], [["1"], ["2"], ["3"]]⟩ "t" 2 ()
        (fun _ _ => (Except.ok () : Except Unit Unit))).calls.length + 1 := by
  exact c8_zero_row_read_terminates ⟨["a"], [["1"], ["2"], ["3"]]⟩ "t" 2 ()
    (fun _ _ => Except.ok ()) (by decide) (fun _ _ => rfl)

/-- C9: in every run of either coordinator, whatever the connector does,
every write invocation receives the same destination identifier and the
caller's kwargs bag forwarded verbatim: every successful call of the
offset-reread stream carries `(tbl, kw)`, so does the attempted call of
a write failure, and every call of the bigquery-variant stream carries
the qualified `dataset.table` name and the same `kw`. -/
theorem c9_write_options_forwarded (f : CsvFile) (tbl dataset_name table_name : String)
    (B : Nat) (kw : κ) (w : Nat → DataFrame → Except ε Unit) :
    (∀ c ∈ (stream_csv_to_database f tbl B kw w).calls,
        c.table_name = tbl ∧ c.kwargs = kw) ∧
    (∀ e a, (stream_csv_to_database f tbl B kw w).status =
        StreamStatus.writeFailed e a → a.table_name = tbl ∧ a.kwargs = kw) ∧
    (∀ c ∈ (stream_csv_to_bigquery f dataset_name table_name B kw w).calls,
        c.table_name = dataset_name ++ "." ++ table_name ∧ c.kwargs = kw) := by
  unfold stream_csv_to_database stream_csv_to_bigquery
  obtain ⟨h1, h2⟩ := streamLoop_calls_mem f B tbl kw w (f.rows.length + 1) 0 0 0 []
    (by intro c hc; cases hc)
  exact ⟨h1, h2, bqWriteAll_calls_mem _ kw w _ 0 [] (by intro c hc; cases hc)⟩

/-- Witness for C9: the single call of a one-row run carries the table
name and kwargs it was invoked with. -/
theorem c9_write_options_forwarded_witness :
    (⟨⟨["a"], [["1"]]⟩, "t", ()⟩ : WriteCall Unit).table_name = "t" ∧
    (⟨⟨["a"], [["1"]]⟩, "t", ()⟩ : WriteCall Unit).kwargs = () :=
  (c9_write_options_forwarded ⟨["a"], [["1"]]⟩ "t" "d" "tb" 1 ()
      (fun _ _ => (Except.ok () : Except Unit Unit))).1
    ⟨⟨["a"], [["1"]]⟩, "t", ()⟩ (by decide)

/-- C10: the implicit loop invariant of the offset-reread stream: from
any loop state in which `skip_rows_count = records_written = ` the total
row count of the batches successfully written so far — as at the initial
state `0 / 0 / []` — the loop preserves this relation to its final
state (each successful write advances both counters by exactly its batch
length), and in particular the whole `stream_csv_to_database` run ends
with `skip_rows_count = records_written = ` the total row count of its
successful write calls. -/
theorem c10_offset_counter_invariant (f : CsvFile) (B : Nat) (tbl : String) (kw : κ)
    (w : Nat → DataFrame → Except ε Unit) (fuel s reads : Nat)
    (calls : List (WriteCall κ))
    (h : s = (calls.map fun c => c.df.rows.length).sum) :
    ((streamLoop f B tbl kw w fuel s s calls reads).skipRowsCount =
        (streamLoop f B tbl kw w fuel s s calls reads).recordsWritten ∧
      (streamLoop f B tbl kw w fuel s s calls reads).recordsWritten =
        (((streamLoop f B tbl kw w fuel s s calls reads).calls).map
          fun c => c.df.rows.length).sum) ∧
    ((stream_csv_to_database f tbl B kw w).skipRowsCount =
        (stream_csv_to_database f tbl B kw w).recordsWritten ∧
      (stream_csv_to_database f tbl B kw w).recordsWritten =
        (((stream_csv_to_database f tbl B kw w).calls).map
          fun c => c.df.rows.length).sum) := by
  refine ⟨streamLoop_counters f B tbl kw w fuel s reads calls h, ?_⟩
  unfold stream_csv_to_database
  exact streamLoop_counters f B tbl kw w (f.rows.length + 1) 0 0 [] rfl

/-- Witness for C10 at a concrete loop state and run. -/
theorem c10_offset_counter_invariant_witness :
    ((streamLoop ⟨["a"], [["1"]]⟩ 1 "t" ()
          (fun _ _ => (Except.ok () : Except Unit Unit)) 2 0 0 [] 0).skipRowsCount =
        (streamLoop ⟨["a"], [["1"]]⟩ 1 "t" ()
          (fun _ _ => (Except.ok () : Except Unit Unit)) 2 0 0 [] 0).recordsWritten ∧
      (streamLoop ⟨["a"], [["1"]]⟩ 1 "t" ()
          (fun _ _ => (Except.ok () : Except Unit Unit)) 2 0 0 [] 0).recordsWritten =
        (((streamLoop ⟨["a"], [["1"]]⟩ 1 "t" ()
          (fun _ _ => (Except.ok () : Except Unit Unit)) 2 0 0 [] 0).calls).map
          fun c => c.df.rows.length).sum) ∧
    ((stream_csv_to_database ⟨["a"], [["1"]]⟩ "t" 1 ()
          (fun _ _ => (Except.ok () : Except Unit Unit))).skipRowsCount =
        (stream_csv_to_database ⟨["a"], [["1"]]⟩ "t" 1 ()
          (fun _ _ => (Except.ok () : Except Unit Unit))).recordsWritten ∧
      (stream_csv_to_database ⟨["a"], [["1"]]⟩ "t" 1 ()
          (fun _ _ => (Except.ok () : Except Unit Unit))).recordsWritten =
        (((stream_csv_to_database ⟨["a"], [["1"]]⟩ "t" 1 ()
          (fun _ _ => (Except.ok () : Except Unit Unit))).calls).map
          fun c => c.df.rows.length).sum) :=
  c10_offset_counter_invariant ⟨["a"], [["1"]]⟩ 1 "t" ()
    (fun _ _ => (Except.ok () : Except Unit Unit)) 2 0 0 [] rfl

end Klondike
